import Mathlib

/-!
Verification of the environment-registry module (`jumanji/registration.py`).

The embedding models:
* the identifier regex `ENV_NAME_RE = ^(?:(?P<name>[\w:.-]+?))(?:-v(?P<version>\d+))?$`
  with Python backtracking semantics (`name` is a lazy one-or-more over the
  class `[\w:.-]`, the version group is optional and `\d+` is greedy, anchored
  by fullmatch).  `\w` and `\d` are modelled over their ASCII fragment, the
  only fragment the module's identifiers use;
* `parse_env_id`, `get_env_id`, the `EnvSpec` dataclass (whose
  `__post_init__` re-parses the canonical id), `_check_registration_is_allowed`,
  `register`, `make` and `registered_environments`.

The process-wide dict `_REGISTRY` is modelled as an insertion-ordered
association list, and the stateful `register`/`make` as state-passing
functions returning `Except RegErr _ × Registry` whose second component is the
registry after the call; the Python code mutates the registry only in the very
last line of `register`, which the translation mirrors.  `make` is modelled up
to the external resolver boundary: it returns the entry point, the positional
arguments and the merged keyword arguments that the resolved constructor would
be invoked with.  Python `ValueError`/`TypeError` conditions are distinguished
by the constructor of `RegErr`; the `UnregisteredEnvironment` error carries the
list of registered ids that the Python message enumerates (one `- id` line per
registered environment, in registry order).  Keyword-argument values are an
arbitrary type `V`; `register`'s `**kwargs` is a keyword list forwarded to the
`EnvSpec` constructor, whose dataclass-generated `__init__` accepts only the
keyword `kwargs` here (the names `id` and `entry_point` are already bound, any
other name is unexpected), raising `TypeError` otherwise.
-/

deriving instance DecidableEq for Except

namespace Jumanji

/-- ASCII fragment of Python's `\w`: letters, digits, underscore. -/
def isWordChar (c : Char) : Bool :=
  c.isAlphanum || c = '_'

/-- A character allowed inside the `name` group of `ENV_NAME_RE`: `[\w:.-]`. -/
def legalChar (c : Char) : Bool :=
  isWordChar c || c = ':' || c = '.' || c = '-'

/-- Decimal value of a digit string, as Python's `int` computes it. -/
def digitsToNat (l : List Char) : Nat :=
  l.foldl (fun a c => 10 * a + (c.toNat - 48)) 0

/-- Fuelled digit printer (the fuel argument makes the recursion structural;
any fuel above the number is enough, see `natToDigitsCore_fuel`). -/
def natToDigitsCore (fuel n : Nat) : List Char :=
  match fuel with
  | 0 => []
  | fuel + 1 =>
    if n < 10 then [Nat.digitChar n]
    else natToDigitsCore fuel (n / 10) ++ [Nat.digitChar (n % 10)]

/-- Decimal digits of a natural number, as Python's `str`/f-string prints it. -/
def natToDigits (n : Nat) : List Char :=
  natToDigitsCore (n + 1) n

/-- Decimal rendering of a natural number as a string. -/
def natToString (n : Nat) : String :=
  String.mk (natToDigits n)

/-- The optional version group of `ENV_NAME_RE` tried against the whole
remaining input: it matches exactly when the remainder is a literal `-v`
followed by one or more digits reaching the end of the string (the group is
followed by the `$` anchor, so the greedy `\d+` must exhaust the input). -/
def versionSuffix (l : List Char) : Option Nat :=
  match l with
  | c1 :: c2 :: rest =>
    if c1 = '-' ∧ c2 = 'v' ∧ rest ≠ [] ∧ rest.all Char.isDigit then
      some (digitsToNat rest)
    else none
  | _ => none

/-- Backtracking loop of `ENV_NAME_RE.fullmatch` after at least one name
character has been consumed into `acc`.  Mirroring the lazy `+?`, at each
position the engine first tries the (greedy) optional version group against
the whole remainder, then tries to finish the match there (`$`), and only then
extends the name by one more class character. -/
def reGo : List Char → List Char → Option (List Char × Option Nat)
  | acc, [] => some (acc, none)
  | acc, c :: rest =>
    match versionSuffix (c :: rest) with
    | some v => some (acc, some v)
    | none => if legalChar c then reGo (acc ++ [c]) rest else none

/-- Registry errors; the Python module raises them all as `ValueError` except
for `typeError`, which is the `TypeError` produced by keyword binding in the
`EnvSpec` dataclass constructor. -/
inductive RegErr where
  | malformed (id : String)
  | duplicate (id : String)
  | versionGap (version : Nat)
  | unregistered (id : String) (registered : List String)
  | typeError (kw : String)
deriving DecidableEq, Repr

/-- `parse_env_id`: fullmatch the id against `ENV_NAME_RE`; on failure raise
`Malformed environment name`; on success return the captured name and the
version, defaulted to `0` when the version group did not participate. -/
def parse_env_id (id : String) : Except RegErr (String × Nat) :=
  match id.data with
  | [] => .error (.malformed id)
  | c :: rest =>
    if legalChar c then
      match reGo [c] rest with
      | some nv => .ok (String.mk nv.1, nv.2.getD 0)
      | none => .error (.malformed id)
    else .error (.malformed id)

/-- `get_env_id`: `version = version or 0; name + f"-v{version}"` (both a
missing version and an explicit `0` render as `0`). -/
def get_env_id (name : String) (version : Option Nat) : String :=
  name ++ "-v" ++ natToString (version.getD 0)

/-- Mapping of default construction keyword arguments (a Python dict:
insertion-ordered, keys unique in practice). -/
abbrev Dict (V : Type) := List (String × V)

/-- The `EnvSpec` dataclass after `__post_init__`: `name` and `version` hold
the result of `parse_env_id` applied to `id`. -/
structure EnvSpec (V : Type) where
  id : String
  entry_point : String
  kwargs : Dict V
  name : String
  version : Nat
deriving DecidableEq, Repr

/-- The process-wide `_REGISTRY` dict: canonical id keys mapped to their
`EnvSpec`, in insertion order. -/
abbrev Registry (V : Type) := List (String × EnvSpec V)

/-- `registered_environments`: `list(_REGISTRY.keys())`. -/
def registered_environments {V : Type} (R : Registry V) : List String :=
  R.map (·.1)

/-- Python's `max(it, default=None)` over a list of naturals. -/
def maxNat? : List Nat → Option Nat
  | [] => none
  | v :: rest =>
    match maxNat? rest with
    | none => some v
    | some m => some (max v m)

/-- `max((_spec.version for _spec in _REGISTRY.values() if _spec.name == name),
default=None)`. -/
def latestVersion {V : Type} (R : Registry V) (name : String) : Option Nat :=
  maxNat? (R.filterMap (fun p => if p.2.name = name then some p.2.version else none))

/-- `_check_registration_is_allowed`: reject an id already registered, then
reject a non-zero version for a name with no registered version at all. -/
def check_registration_is_allowed {V : Type} (R : Registry V) (spec : EnvSpec V) :
    Except RegErr Unit :=
  if spec.id ∈ registered_environments R then .error (.duplicate spec.id)
  else if latestVersion R spec.name = none ∧ spec.version ≠ 0 then
    .error (.versionGap spec.version)
  else .ok ()

/-- Keyword binding performed by `EnvSpec(id=env_id, entry_point=entry_point,
**kwargs)`: with `id` and `entry_point` already bound, the dataclass
`__init__` accepts only the keyword `kwargs` (default `{}`); any other keyword
name raises `TypeError` (either `unexpected keyword argument` or `multiple
values for argument`). -/
def bindEnvSpecKwargs {V : Type} : List (String × Dict V) → Except RegErr (Dict V)
  | [] => .ok []
  | (k, v) :: rest =>
    if k = "kwargs" then
      match bindEnvSpecKwargs rest with
      | .error e => .error e
      | .ok _ => .ok v
    else .error (.typeError k)

/-- `register`: parse the id, canonicalize it, build the `EnvSpec` (keyword
binding then `__post_init__` re-parse), run the registration check, and only
then insert into the registry.  The returned registry is the registry after
the call; every failure leaves it untouched because the Python function
mutates `_REGISTRY` only in its final statement. -/
def registerS {V : Type} (id entry_point : String) (extra : List (String × Dict V))
    (R : Registry V) : Except RegErr Unit × Registry V :=
  match parse_env_id id with
  | .error e => (.error e, R)
  | .ok (env_name, version) =>
    let env_id := get_env_id env_name (some version)
    match bindEnvSpecKwargs extra with
    | .error e => (.error e, R)
    | .ok kw =>
      match parse_env_id env_id with
      | .error e => (.error e, R)
      | .ok nv =>
        let spec : EnvSpec V := ⟨env_id, entry_point, kw, nv.1, nv.2⟩
        match check_registration_is_allowed R spec with
        | .error e => (.error e, R)
        | .ok _ => (.ok (), R ++ [(env_id, spec)])

/-- `d[k] = v` on a Python dict: overwrite in place when the key is present
(dict keys are unique, so at most one entry holds it), append at the end
otherwise. -/
def dictSet {V : Type} (d : Dict V) (k : String) (v : V) : Dict V :=
  match d with
  | [] => [(k, v)]
  | p :: rest => if p.1 == k then (k, v) :: rest else p :: dictSet rest k v

/-- `d.update(upd)` on a copy of `d`. -/
def dictUpdate {V : Type} (d upd : Dict V) : Dict V :=
  upd.foldl (fun acc p => dictSet acc p.1 p.2) d

/-- Dict lookup (first entry with the key). -/
def dictLookup {V : Type} (d : Dict V) (k : String) : Option V :=
  (d.find? (fun p => p.1 == k)).map (·.2)

/-- The first option when present, the second otherwise (used to state which
value a merged dict holds at a key). -/
def firstSome {V : Type} (a b : Option V) : Option V :=
  match a with
  | some w => some w
  | none => b

/-- `make`: parse and canonicalize the id, look the record up (raising
`Unregistered environment`, whose message enumerates every registered id, when
absent), copy the stored kwargs and update them with the call-time kwargs, and
return what the resolved constructor is invoked with: the record's entry
point, the positional arguments and the merged keyword arguments.  `make`
never mutates the registry. -/
def make {V A : Type} (id : String) (args : List A) (kwargs : Dict V)
    (R : Registry V) : Except RegErr (String × List A × Dict V) × Registry V :=
  match parse_env_id id with
  | .error e => (.error e, R)
  | .ok (env_name, version) =>
    let env_id := get_env_id env_name (some version)
    match R.find? (fun p => p.1 == env_id) with
    | none => (.error (.unregistered env_id (registered_environments R)), R)
    | some p =>
      let env_fn_kwargs := dictUpdate p.2.kwargs kwargs
      (.ok (p.2.entry_point, args, env_fn_kwargs), R)

/-- `true` iff some suffix of the character list is a literal `-v` followed by
one or more digits reaching the end; when `false`, no position of the string
lets the optional version group of `ENV_NAME_RE` participate. -/
def hasVerSuffix : List Char → Bool
  | [] => false
  | c :: rest => (versionSuffix (c :: rest)).isSome || hasVerSuffix rest

/-- Well-formedness of the registry: every stored record's `id` equals its
key, and its `name`/`version` are the parse of that key — exactly what
`register` stores.  Every registry reachable from the empty one satisfies it. -/
def RegistryWF {V : Type} (R : Registry V) : Prop :=
  ∀ p ∈ R, p.2.id = p.1 ∧ parse_env_id p.1 = .ok (p.2.name, p.2.version)

/-! ### Decimal printing -/

theorem toNat_digitChar : ∀ d < 10, (Nat.digitChar d).toNat = 48 + d := by decide

theorem isDigit_digitChar : ∀ d < 10, (Nat.digitChar d).isDigit = true := by decide

theorem digitsToNat_append (l : List Char) (c : Char) :
    digitsToNat (l ++ [c]) = 10 * digitsToNat l + (c.toNat - 48) := by
  simp [digitsToNat, List.foldl_append]

theorem natToDigitsCore_fuel (fuel : Nat) : ∀ n < fuel,
    digitsToNat (natToDigitsCore fuel n) = n ∧ natToDigitsCore fuel n ≠ [] ∧
      (natToDigitsCore fuel n).all Char.isDigit = true := by
  induction fuel with
  | zero => intro n hn; omega
  | succ fuel ih =>
    intro n hn
    by_cases h10 : n < 10
    · have hd : (Nat.digitChar n).toNat = 48 + n := toNat_digitChar n h10
      have hdig : (Nat.digitChar n).isDigit = true := isDigit_digitChar n h10
      simp [natToDigitsCore, h10, digitsToNat, hd, hdig]
    · have hdivlt : n / 10 < n := Nat.div_lt_self (by omega) (by omega)
      obtain ⟨ih1, ih2, ih3⟩ := ih (n / 10) (by omega)
      have hmod : n % 10 < 10 := Nat.mod_lt n (by omega)
      have hd : (Nat.digitChar (n % 10)).toNat = 48 + n % 10 := toNat_digitChar _ hmod
      have hdig : (Nat.digitChar (n % 10)).isDigit = true := isDigit_digitChar _ hmod
      refine ⟨?_, ?_, ?_⟩
      · rw [natToDigitsCore]
        simp only [h10, if_false, digitsToNat_append, ih1, hd]
        omega
      · simp [natToDigitsCore, h10]
      · simp [natToDigitsCore, h10, ih3, hdig]

theorem digitsToNat_natToDigits (n : Nat) : digitsToNat (natToDigits n) = n :=
  (natToDigitsCore_fuel (n + 1) n (by omega)).1

theorem natToDigits_ne_nil (n : Nat) : natToDigits n ≠ [] :=
  (natToDigitsCore_fuel (n + 1) n (by omega)).2.1

theorem natToDigits_all_isDigit (n : Nat) : (natToDigits n).all Char.isDigit = true :=
  (natToDigitsCore_fuel (n + 1) n (by omega)).2.2

theorem legalChar_of_isDigit {c : Char} (h : c.isDigit = true) : legalChar c = true := by
  simp [legalChar, isWordChar, Char.isAlphanum, h]

/-! ### Strings -/

theorem data_append (s t : String) : (s ++ t).data = s.data ++ t.data := rfl

theorem mk_data (s : String) : String.mk s.data = s := rfl

theorem eq_of_data {s t : String} (h : s.data = t.data) : s = t := by
  cases s; cases t; exact congrArg String.mk h

theorem get_env_id_data (name : String) (v : Nat) :
    (get_env_id name (some v)).data = name.data ++ '-' :: 'v' :: natToDigits v := by
  simp [get_env_id, natToString, data_append]

/-! ### The regex match -/

theorem versionSuffix_version {d : List Char} (hd : d ≠ [])
    (hdig : d.all Char.isDigit = true) :
    versionSuffix ('-' :: 'v' :: d) = some (digitsToNat d) := by
  simp [versionSuffix, hd, hdig]

theorem versionSuffix_mid {m : List Char} (d : List Char) (hm : m ≠ []) :
    versionSuffix (m ++ '-' :: 'v' :: d) = none := by
  match m with
  | [] => exact absurd rfl hm
  | [c] =>
    show versionSuffix (c :: '-' :: 'v' :: d) = none
    rw [versionSuffix, if_neg]
    rintro ⟨-, h2, -, -⟩
    exact absurd h2 (by decide)
  | c1 :: c2 :: m =>
    show versionSuffix (c1 :: c2 :: (m ++ '-' :: 'v' :: d)) = none
    rw [versionSuffix, if_neg]
    rintro ⟨-, -, -, h4⟩
    have := List.all_eq_true.mp h4 '-' (by simp)
    exact absurd this (by decide)

theorem reGo_append_version {m d : List Char} (hm : m.all legalChar = true)
    (hd : d ≠ []) (hdig : d.all Char.isDigit = true) (acc : List Char) :
    reGo acc (m ++ '-' :: 'v' :: d) = some (acc ++ m, some (digitsToNat d)) := by
  induction m generalizing acc with
  | nil =>
    simp only [List.nil_append, List.append_nil]
    rw [reGo, versionSuffix_version hd hdig]
  | cons c m ih =>
    simp only [List.all_cons, Bool.and_eq_true] at hm
    rw [List.cons_append, reGo]
    rw [show c :: (m ++ '-' :: 'v' :: d) = (c :: m) ++ '-' :: 'v' :: d from rfl,
      versionSuffix_mid d (by simp)]
    simp only [hm.1, if_true]
    rw [ih hm.2]
    simp

theorem reGo_no_suffix {rest : List Char} (hleg : rest.all legalChar = true)
    (hnos : hasVerSuffix rest = false) (acc : List Char) :
    reGo acc rest = some (acc ++ rest, none) := by
  induction rest generalizing acc with
  | nil => simp [reGo]
  | cons c rest ih =>
    simp only [List.all_cons, Bool.and_eq_true] at hleg
    rw [hasVerSuffix, Bool.or_eq_false_iff] at hnos
    rw [reGo]
    rw [show versionSuffix (c :: rest) = none from by
      cases h : versionSuffix (c :: rest) with
      | none => rfl
      | some v => rw [h] at hnos; simp at hnos]
    simp only [hleg.1, if_true]
    rw [ih hleg.2 hnos.2]
    simp

theorem reGo_shape {rest : List Char} : ∀ {acc nm : List Char} {vv : Option Nat},
    reGo acc rest = some (nm, vv) → acc ≠ [] → acc.all legalChar = true →
      nm ≠ [] ∧ nm.all legalChar = true := by
  induction rest with
  | nil =>
    intro acc nm vv h hne hleg
    rw [reGo] at h
    injection h with h
    injection h with h1 h2
    exact h1 ▸ ⟨hne, hleg⟩
  | cons c rest ih =>
    intro acc nm vv h hne hleg
    rw [reGo] at h
    cases hv : versionSuffix (c :: rest) with
    | some v =>
      rw [hv] at h
      injection h with h
      injection h with h1 h2
      exact h1 ▸ ⟨hne, hleg⟩
    | none =>
      rw [hv] at h
      by_cases hc : legalChar c
      · rw [if_pos hc] at h
        exact ih h (by simp) (by simp [List.all_append, hleg, hc])
      · rw [if_neg hc] at h
        exact absurd h (by simp)

/-! ### `parse_env_id` -/

theorem parse_get_env_id {name : String} (v : Nat) (hne : name.data ≠ [])
    (hleg : name.data.all legalChar = true) :
    parse_env_id (get_env_id name (some v)) = .ok (name, v) := by
  cases hnd : name.data with
  | nil => exact absurd hnd hne
  | cons c rest =>
    have hdata : (get_env_id name (some v)).data =
        c :: (rest ++ '-' :: 'v' :: natToDigits v) := by
      rw [get_env_id_data, hnd, List.cons_append]
    rw [hnd, List.all_cons, Bool.and_eq_true] at hleg
    rw [parse_env_id, hdata]
    simp only [hleg.1, if_true]
    rw [reGo_append_version hleg.2 (natToDigits_ne_nil v) (natToDigits_all_isDigit v)]
    simp only [Option.getD_some]
    rw [digitsToNat_natToDigits]
    have : String.mk ([c] ++ rest) = name := by
      rw [show [c] ++ rest = c :: rest from rfl, ← hnd, mk_data]
    rw [this]

theorem parse_no_suffix_eq {s : String} (hne : s.data ≠ [])
    (hleg : s.data.all legalChar = true) (hnos : hasVerSuffix s.data = false) :
    parse_env_id s = .ok (s, 0) := by
  cases hnd : s.data with
  | nil => exact absurd hnd hne
  | cons c rest =>
    rw [hnd, List.all_cons, Bool.and_eq_true] at hleg
    rw [hnd, hasVerSuffix, Bool.or_eq_false_iff] at hnos
    rw [parse_env_id, hnd]
    simp only [hleg.1, if_true]
    rw [reGo_no_suffix hleg.2 hnos.2]
    simp only [Option.getD_none]
    have : String.mk ([c] ++ rest) = s := by
      rw [show [c] ++ rest = c :: rest from rfl, ← hnd, mk_data]
    rw [this]

theorem parse_ok_shape {id n : String} {v : Nat}
    (h : parse_env_id id = .ok (n, v)) : n.data ≠ [] ∧ n.data.all legalChar = true := by
  rw [parse_env_id] at h
  cases hnd : id.data with
  | nil => rw [hnd] at h; exact absurd h (by simp)
  | cons c rest =>
    rw [hnd] at h
    simp only [] at h
    by_cases hc : legalChar c = true
    · simp only [hc, if_true] at h
      cases hgo : reGo [c] rest with
      | none => rw [hgo] at h; exact absurd h (by simp)
      | some nv =>
        rw [hgo] at h
        simp only [Except.ok.injEq, Prod.mk.injEq] at h
        have h1 : String.mk nv.1 = n := h.1
        have hgo2 : reGo [c] rest = some (nv.1, nv.2) := by rw [hgo]
        have := reGo_shape hgo2 (by simp) (by simp [hc])
        rw [← h1]
        exact this
    · simp only [hc, if_false] at h; exact absurd h (by simp)

/-! ### The registry -/

theorem registerS_steps {V : Type} (R : Registry V) (id ep : String) {name : String}
    {v : Nat} (extra : List (String × Dict V)) {kw : Dict V}
    (hparse : parse_env_id id = .ok (name, v))
    (hbind : bindEnvSpecKwargs extra = .ok kw) :
    registerS id ep extra R =
      if get_env_id name (some v) ∈ registered_environments R then
        (.error (.duplicate (get_env_id name (some v))), R)
      else if latestVersion R name = none ∧ v ≠ 0 then
        (.error (.versionGap v), R)
      else
        (.ok (), R ++ [(get_env_id name (some v),
          ⟨get_env_id name (some v), ep, kw, name, v⟩)]) := by
  obtain ⟨hne, hleg⟩ := parse_ok_shape hparse
  have hpost := parse_get_env_id v hne hleg
  rw [registerS, hparse]
  simp only []
  rw [hbind]
  simp only []
  rw [hpost]
  simp only []
  by_cases hmem : get_env_id name (some v) ∈ registered_environments R
  · simp [check_registration_is_allowed, hmem]
  · by_cases hgap : latestVersion R name = none ∧ v ≠ 0
    · simp [check_registration_is_allowed, hmem, hgap]
    · simp [check_registration_is_allowed, hmem, hgap]

theorem registerS_cases {V : Type} (id ep : String) (extra : List (String × Dict V))
    (R : Registry V) :
    (registerS id ep extra R).2 = R ∨ (registerS id ep extra R).1 = .ok () := by
  unfold registerS
  repeat' first
  | (left; rfl)
  | (right; rfl)
  | split
  | dsimp only

theorem registerS_error_snd {V : Type} {id ep : String} {extra : List (String × Dict V)}
    {R : Registry V} {e : RegErr} (h : (registerS id ep extra R).1 = .error e) :
    (registerS id ep extra R).2 = R := by
  rcases registerS_cases id ep extra R with h2 | h2
  · exact h2
  · rw [h2] at h; exact absurd h (by simp)

theorem make_snd {V A : Type} (id : String) (args : List A) (kwargs : Dict V)
    (R : Registry V) : (make id args kwargs R).2 = R := by
  unfold make
  repeat' first | rfl | split | dsimp only

theorem mem_registered_iff {V : Type} (R : Registry V) (c : String) :
    c ∈ registered_environments R ↔ ∃ s, (c, s) ∈ R := by
  simp only [registered_environments, List.mem_map]
  constructor
  · rintro ⟨⟨k, s⟩, hmem, rfl⟩
    exact ⟨s, hmem⟩
  · rintro ⟨s, hmem⟩
    exact ⟨(c, s), hmem, rfl⟩

theorem maxNat?_eq_none {l : List Nat} : maxNat? l = none ↔ l = [] := by
  cases l with
  | nil => simp [maxNat?]
  | cons v rest =>
    rw [maxNat?]
    cases maxNat? rest <;> simp

theorem latestVersion_eq_none {V : Type} (R : Registry V) (name : String) :
    latestVersion R name = none ↔ ∀ p ∈ R, p.2.name ≠ name := by
  rw [latestVersion, maxNat?_eq_none, List.filterMap_eq_nil_iff]
  constructor
  · intro h p hp hname
    have := h p hp
    rw [if_pos hname] at this
    exact absurd this (by simp)
  · intro h p hp
    rw [if_neg (h p hp)]

/-! ### Dict operations -/

theorem dictUpdate_nil {V : Type} (d : Dict V) : dictUpdate d [] = d := rfl

theorem dictUpdate_cons {V : Type} (d : Dict V) (k : String) (v : V) (rest : Dict V) :
    dictUpdate d ((k, v) :: rest) = dictUpdate (dictSet d k v) rest := rfl

theorem dictLookup_nil {V : Type} (k : String) : dictLookup ([] : Dict V) k = none := rfl

theorem dictLookup_cons {V : Type} (p : String × V) (d : Dict V) (k : String) :
    dictLookup (p :: d) k = if p.1 == k then some p.2 else dictLookup d k := by
  cases hp : (p.1 == k) with
  | true => simp [dictLookup, List.find?_cons, hp]
  | false => simp [dictLookup, List.find?_cons, hp]

theorem dictLookup_dictSet_self {V : Type} (d : Dict V) (k : String) (v : V) :
    dictLookup (dictSet d k v) k = some v := by
  induction d with
  | nil => simp [dictSet, dictLookup_cons]
  | cons p rest ih =>
    rw [dictSet]
    by_cases hp : (p.1 == k) = true
    · simp [hp, dictLookup_cons]
    · rw [if_neg hp, dictLookup_cons, if_neg hp]
      exact ih

theorem dictLookup_dictSet_ne {V : Type} (d : Dict V) (k k2 : String) (v : V)
    (h : k2 ≠ k) : dictLookup (dictSet d k v) k2 = dictLookup d k2 := by
  have hkk2 : (k == k2) = false := beq_eq_false_iff_ne.mpr (Ne.symm h)
  induction d with
  | nil => simp [dictSet, dictLookup_cons, hkk2, dictLookup_nil]
  | cons p rest ih =>
    rw [dictSet]
    by_cases hp : (p.1 == k) = true
    · have hp1 : p.1 = k := by simpa using hp
      simp [dictLookup_cons, hkk2, hp1]
    · rw [if_neg hp, dictLookup_cons, dictLookup_cons, ih]

theorem dictLookup_not_mem {V : Type} {d : Dict V} {k : String}
    (h : k ∉ d.map (fun p => p.1)) : dictLookup d k = none := by
  have : d.find? (fun q => q.1 == k) = none := by
    rw [List.find?_eq_none]
    intro x hx
    simp only [beq_iff_eq]
    intro heq
    exact h (List.mem_map.mpr ⟨x, hx, heq⟩)
  simp [dictLookup, this]

theorem firstSome_none {V : Type} (b : Option V) : firstSome none b = b := rfl

theorem firstSome_some {V : Type} (a : V) (b : Option V) :
    firstSome (some a) b = some a := rfl

theorem dictLookup_dictUpdate {V : Type} (stored caller : Dict V)
    (hnodup : (caller.map (fun p => p.1)).Nodup) (k : String) :
    dictLookup (dictUpdate stored caller) k =
      firstSome (dictLookup caller k) (dictLookup stored k) := by
  induction caller generalizing stored with
  | nil => rw [dictUpdate_nil, dictLookup_nil, firstSome_none]
  | cons p rest ih =>
    obtain ⟨k0, v0⟩ := p
    rw [List.map_cons, List.nodup_cons] at hnodup
    rw [dictUpdate_cons, ih _ hnodup.2, dictLookup_cons]
    by_cases hk : (k0 == k) = true
    · have hk0 : k0 = k := by simpa using hk
      subst hk0
      rw [dictLookup_not_mem hnodup.1, firstSome_none, if_pos hk, firstSome_some,
        dictLookup_dictSet_self]
    · have hne : k ≠ k0 := fun he => hk (by simp [he])
      rw [if_neg hk, dictLookup_dictSet_ne _ _ _ _ hne]

/-! ### Keyword binding -/

theorem bindEnvSpecKwargs_nil {V : Type} :
    bindEnvSpecKwargs ([] : List (String × Dict V)) = .ok [] := rfl

theorem bindEnvSpecKwargs_kwargs {V : Type} (m : Dict V) :
    bindEnvSpecKwargs [("kwargs", m)] = .ok m := rfl

theorem bindEnvSpecKwargs_bad {V : Type} {extra : List (String × Dict V)}
    (h : ∃ p ∈ extra, p.1 ≠ "kwargs") :
    ∃ k, k ≠ "kwargs" ∧ bindEnvSpecKwargs extra = .error (.typeError k) := by
  induction extra with
  | nil => obtain ⟨p, hp, -⟩ := h; exact absurd hp (by simp)
  | cons q rest ih =>
    obtain ⟨k0, v0⟩ := q
    by_cases hk : k0 = "kwargs"
    · subst hk
      have hrest : ∃ p ∈ rest, p.1 ≠ "kwargs" := by
        obtain ⟨p, hp, hpk⟩ := h
        rcases List.mem_cons.mp hp with heq | hmem
        · exact absurd (congrArg Prod.fst heq) hpk
        · exact ⟨p, hmem, hpk⟩
      obtain ⟨k, hkne, hbind⟩ := ih hrest
      refine ⟨k, hkne, ?_⟩
      rw [bindEnvSpecKwargs, if_pos rfl, hbind]
    · refine ⟨k0, hk, ?_⟩
      rw [bindEnvSpecKwargs, if_neg hk]

/-- A failing keyword binding is always a `TypeError`, never any other
registry error. -/
theorem bindEnvSpecKwargs_error_shape {V : Type} {extra : List (String × Dict V)}
    {e : RegErr} (h : bindEnvSpecKwargs extra = .error e) : ∃ k, e = .typeError k := by
  induction extra with
  | nil => exact absurd h (by simp [bindEnvSpecKwargs])
  | cons q rest ih =>
    obtain ⟨k0, v0⟩ := q
    rw [bindEnvSpecKwargs] at h
    by_cases hk : k0 = "kwargs"
    · rw [if_pos hk] at h
      cases hb : bindEnvSpecKwargs rest with
      | error e2 =>
        rw [hb] at h
        simp only [] at h
        injection h with h2
        rw [h2] at hb
        exact ih hb
      | ok kw =>
        rw [hb] at h
        exact absurd h (by simp)
    · rw [if_neg hk] at h
      injection h with h2
      exact ⟨k0, h2.symm⟩

/-- Once the identifier parses, `register` can fail only with a keyword
`TypeError`, a duplicate or a version gap — never with
`Malformed environment name` (in particular the re-parse of the canonical id
inside the `EnvSpec` constructor always succeeds). -/
theorem registerS_not_malformed {V : Type} {id : String} (ep : String)
    (extra : List (String × Dict V)) (R : Registry V) {name : String} {v : Nat}
    (hparse : parse_env_id id = .ok (name, v)) (m : String) :
    (registerS id ep extra R).1 ≠ .error (.malformed m) := by
  cases hb : bindEnvSpecKwargs extra with
  | error e =>
    obtain ⟨k, rfl⟩ := bindEnvSpecKwargs_error_shape hb
    rw [registerS, hparse]
    simp only []
    rw [hb]
    simp
  | ok kw =>
    rw [registerS_steps R id ep extra hparse hb]
    split_ifs <;> simp

/-- Once the identifier parses, `make` can fail only with
`Unregistered environment`, never with `Malformed environment name`. -/
theorem make_not_malformed {V A : Type} {id : String} (args : List A)
    (kwargs : Dict V) (R : Registry V) {name : String} {v : Nat}
    (hparse : parse_env_id id = .ok (name, v)) (m : String) :
    (make id args kwargs R).1 ≠ .error (.malformed m) := by
  rw [make, hparse]
  simp only []
  cases hf : R.find? (fun p => p.1 == get_env_id name (some v)) with
  | none => simp
  | some p => simp

end Jumanji


namespace Jumanji

/-- C1 (amended): for every nonempty name made of grammar-legal characters and
every version, parsing the formatted id returns exactly the pair back. -/
theorem c1_format_parse_roundtrip (name : String) (v : Nat) (hne : name.data ≠ [])
    (hleg : name.data.all legalChar = true) :
    parse_env_id (get_env_id name (some v)) = .ok (name, v) :=
  parse_get_env_id v hne hleg

/-- C1 witness: the round trip at the concrete pair `("foo", 7)`. -/
theorem c1_format_parse_roundtrip_witness :
    parse_env_id (get_env_id "foo" (some 7)) = .ok ("foo", 7) :=
  c1_format_parse_roundtrip "foo" 7 (by decide) (by decide)

/-- C1 counterexample: the empty name consists (vacuously) of grammar-legal
characters only, yet `parse(format("", 3))` is `("-v3", 0)`, not `("", 3)`. -/
theorem c1_empty_name_breaks_roundtrip :
    "".data.all legalChar = true ∧
      parse_env_id (get_env_id "" (some 3)) = .ok ("-v3", 0) ∧
      parse_env_id (get_env_id "" (some 3)) ≠ .ok ("", 3) := by
  refine ⟨by decide, by decide, by decide⟩

/-- C2 counterexample: `"foo-v"` and `"foo-v-1"` do not raise
`MalformedIdentifier`; both parse successfully (whole string, version 0). -/
theorem c2_foo_v_parses_ok :
    parse_env_id "foo-v" = .ok ("foo-v", 0) ∧
      parse_env_id "foo-v-1" = .ok ("foo-v-1", 0) := by
  refine ⟨by decide, by decide⟩

/-- C2 (amended): of the three example identifiers only `""` is malformed — it
makes `parse_env_id`, `register` and `make` raise `MalformedIdentifier` — while
`"foo-v"` and `"foo-v-1"` parse as the whole name with version 0, so neither
`register` nor `make` raises `MalformedIdentifier` on either of them (whatever
the registry, entry point, keyword arguments or call arguments). -/
theorem c2_only_empty_is_malformed :
    parse_env_id "" = .error (.malformed "") ∧
    (∀ (R : Registry Nat) (ep : String) (extra : List (String × Dict Nat)),
        registerS "" ep extra R = (.error (.malformed ""), R)) ∧
    (∀ (R : Registry Nat) (args : List Nat) (kwargs : Dict Nat),
        make "" args kwargs R = (.error (.malformed ""), R)) ∧
    parse_env_id "foo-v" = .ok ("foo-v", 0) ∧
    parse_env_id "foo-v-1" = .ok ("foo-v-1", 0) ∧
    (∀ (R : Registry Nat) (ep m : String) (extra : List (String × Dict Nat)),
        (registerS "foo-v" ep extra R).1 ≠ .error (.malformed m) ∧
        (registerS "foo-v-1" ep extra R).1 ≠ .error (.malformed m)) ∧
    (∀ (R : Registry Nat) (args : List Nat) (kwargs : Dict Nat) (m : String),
        (make "foo-v" args kwargs R).1 ≠ .error (.malformed m) ∧
        (make "foo-v-1" args kwargs R).1 ≠ .error (.malformed m)) := by
  have hp : parse_env_id "" = .error (.malformed "") := by decide
  have hfv : parse_env_id "foo-v" = .ok ("foo-v", 0) := by decide
  have hfv1 : parse_env_id "foo-v-1" = .ok ("foo-v-1", 0) := by decide
  refine ⟨hp, ?_, ?_, hfv, hfv1, ?_, ?_⟩
  · intro R ep extra
    rw [registerS, hp]
  · intro R args kwargs
    rw [make, hp]
  · intro R ep m extra
    exact ⟨registerS_not_malformed ep extra R hfv m,
      registerS_not_malformed ep extra R hfv1 m⟩
  · intro R args kwargs m
    exact ⟨make_not_malformed args kwargs R hfv m,
      make_not_malformed args kwargs R hfv1 m⟩

/-- C3: an identifier with no trailing `-v(digits)` suffix anywhere, made of
grammar-legal characters, parses successfully as the whole string with
version 0 — only a literal trailing `-v` followed by digits is a version. -/
theorem c3_unversioned_id_parses_whole (s : String) (hne : s.data ≠ [])
    (hleg : s.data.all legalChar = true) (hnos : hasVerSuffix s.data = false) :
    parse_env_id s = .ok (s, 0) :=
  parse_no_suffix_eq hne hleg hnos

/-- C3 witness: the concrete identifier `"foo-v-1"` parses whole. -/
theorem c3_unversioned_id_parses_whole_witness :
    parse_env_id "foo-v-1" = .ok ("foo-v-1", 0) :=
  c3_unversioned_id_parses_whole "foo-v-1" (by decide) (by decide) (by decide)

/-- C4: `register` raises `VersionGapError` exactly when the parsed version is
non-zero and no record with the same name (at any version) is registered; in
particular registering `n-v0` and then `n-v5` both succeed although versions
1 through 4 are absent. -/
theorem c4_versionGap_iff_first_version_nonzero {V : Type} (R : Registry V)
    (id ep name : String) (v : Nat) (extra : List (String × Dict V)) (kw : Dict V)
    (hWF : RegistryWF R) (hparse : parse_env_id id = .ok (name, v))
    (hbind : bindEnvSpecKwargs extra = .ok kw) :
    ((registerS id ep extra R).1 = .error (.versionGap v) ↔
      v ≠ 0 ∧ ∀ p ∈ R, p.2.name ≠ name) ∧
    registerS (V := Unit) "n-v0" "pkg:Env" [] [] =
      (.ok (), [("n-v0", ⟨"n-v0", "pkg:Env", [], "n", 0⟩)]) ∧
    (registerS (V := Unit) "n-v5" "pkg:Env" []
      [("n-v0", ⟨"n-v0", "pkg:Env", [], "n", 0⟩)]).1 = .ok () := by
  refine ⟨?_, by decide, by decide⟩
  obtain ⟨hne, hleg⟩ := parse_ok_shape hparse
  rw [registerS_steps R id ep extra hparse hbind]
  by_cases hmem : get_env_id name (some v) ∈ registered_environments R
  · rw [if_pos hmem]
    constructor
    · intro h; exact absurd h (by simp)
    · rintro ⟨hv, hnone⟩
      obtain ⟨s, hsR⟩ := (mem_registered_iff R _).mp hmem
      have hw := (hWF _ hsR).2
      rw [parse_get_env_id v hne hleg] at hw
      have h2 : name = s.name ∧ v = s.version := by simpa using hw
      exact absurd h2.1.symm (hnone _ hsR)
  · rw [if_neg hmem]
    by_cases hgap : latestVersion R name = none ∧ v ≠ 0
    · rw [if_pos hgap]
      constructor
      · intro _
        exact ⟨hgap.2, (latestVersion_eq_none R name).mp hgap.1⟩
      · intro _
        rfl
    · rw [if_neg hgap]
      constructor
      · intro h; exact absurd h (by simp)
      · rintro ⟨hv, hnone⟩
        exact absurd ⟨(latestVersion_eq_none R name).mpr hnone, hv⟩ hgap

/-- C4 witness: the characterization applied to a one-record registry and the
identifier `"m-v2"`, whose name has no registered version. -/
theorem c4_versionGap_iff_first_version_nonzero_witness :
    (((registerS (V := Unit) "m-v2" "pkg:Env" []
          [("n-v0", ⟨"n-v0", "pkg:Env", [], "n", 0⟩)]).1 = .error (.versionGap 2)) ↔
      (2 ≠ 0 ∧ ∀ p ∈ ([("n-v0", ⟨"n-v0", "pkg:Env", [], "n", 0⟩)] : Registry Unit),
        p.2.name ≠ "m")) ∧
    registerS (V := Unit) "n-v0" "pkg:Env" [] [] =
      (.ok (), [("n-v0", ⟨"n-v0", "pkg:Env", [], "n", 0⟩)]) ∧
    (registerS (V := Unit) "n-v5" "pkg:Env" []
      [("n-v0", ⟨"n-v0", "pkg:Env", [], "n", 0⟩)]).1 = .ok () :=
  c4_versionGap_iff_first_version_nonzero
    [("n-v0", ⟨"n-v0", "pkg:Env", [], "n", 0⟩)] "m-v2" "pkg:Env" "m" 2 [] []
    (by unfold RegistryWF; decide) (by decide) rfl

/-- C5: a second `register` whose canonical id is already a key raises
`DuplicateRegistration` and leaves the registry unchanged; moreover every
failing `register` on this registry leaves it unchanged (no partial insert). -/
theorem c5_duplicate_registration_unchanged {V : Type} (R : Registry V)
    (id ep name : String) (v : Nat) (extra : List (String × Dict V)) (kw : Dict V)
    (hparse : parse_env_id id = .ok (name, v))
    (hbind : bindEnvSpecKwargs extra = .ok kw)
    (hmem : get_env_id name (some v) ∈ registered_environments R) :
    registerS id ep extra R = (.error (.duplicate (get_env_id name (some v))), R) ∧
    ∀ (id2 ep2 : String) (extra2 : List (String × Dict V)) (e : RegErr),
      (registerS id2 ep2 extra2 R).1 = .error e → (registerS id2 ep2 extra2 R).2 = R := by
  refine ⟨?_, fun id2 ep2 extra2 e h => registerS_error_snd h⟩
  rw [registerS_steps R id ep extra hparse hbind, if_pos hmem]

/-- C5 witness: re-registering `"n-v0"` on the registry that holds it. -/
theorem c5_duplicate_registration_unchanged_witness :
    (registerS (V := Unit) "n-v0" "pkg:Env2" []
        [("n-v0", ⟨"n-v0", "pkg:Env", [], "n", 0⟩)] =
      (.error (.duplicate (get_env_id "n" (some 0))),
        [("n-v0", ⟨"n-v0", "pkg:Env", [], "n", 0⟩)])) ∧
    ∀ (id2 ep2 : String) (extra2 : List (String × Dict Unit)) (e : RegErr),
      (registerS id2 ep2 extra2
          [("n-v0", (⟨"n-v0", "pkg:Env", [], "n", 0⟩ : EnvSpec Unit))]).1 = .error e →
        (registerS id2 ep2 extra2
          [("n-v0", (⟨"n-v0", "pkg:Env", [], "n", 0⟩ : EnvSpec Unit))]).2 =
          [("n-v0", ⟨"n-v0", "pkg:Env", [], "n", 0⟩)] :=
  c5_duplicate_registration_unchanged
    [("n-v0", ⟨"n-v0", "pkg:Env", [], "n", 0⟩)] "n-v0" "pkg:Env2" "n" 0 [] []
    (by decide) rfl (by decide)

/-- C6: an identifier without a version suffix is canonicalized to version 0 by
both operations — `register s` stores its record under the key `s ++ "-v0"`, a
subsequent `register (s ++ "-v0")` raises `DuplicateRegistration`, and
`make s` finds the record stored as `s ++ "-v0"`. -/
theorem c6_default_version_zero {V : Type} (s ep : String) (kw : Dict V)
    (args : List Nat) (hne : s.data ≠ []) (hleg : s.data.all legalChar = true)
    (hnos : hasVerSuffix s.data = false) :
    get_env_id s (some 0) = s ++ "-v0" ∧
    registerS s ep [("kwargs", kw)] [] =
      (.ok (), [(s ++ "-v0", ⟨s ++ "-v0", ep, kw, s, 0⟩)]) ∧
    (registerS (s ++ "-v0") ep [("kwargs", kw)]
        [(s ++ "-v0", ⟨s ++ "-v0", ep, kw, s, 0⟩)]).1 =
      .error (.duplicate (s ++ "-v0")) ∧
    make s args [] [(s ++ "-v0", ⟨s ++ "-v0", ep, kw, s, 0⟩)] =
      (.ok (ep, args, kw), [(s ++ "-v0", ⟨s ++ "-v0", ep, kw, s, 0⟩)]) := by
  have hparse0 : parse_env_id s = .ok (s, 0) := parse_no_suffix_eq hne hleg hnos
  have hbind : bindEnvSpecKwargs [("kwargs", kw)] = .ok kw := bindEnvSpecKwargs_kwargs kw
  have hc : get_env_id s (some 0) = s ++ "-v0" := by
    apply eq_of_data
    rw [get_env_id_data, data_append]
    rfl
  have hparse1 : parse_env_id (s ++ "-v0") = .ok (s, 0) := by
    rw [← hc]
    exact parse_get_env_id 0 hne hleg
  refine ⟨hc, ?_, ?_, ?_⟩
  · rw [registerS_steps [] s ep _ hparse0 hbind]
    rw [if_neg (by simp [registered_environments])]
    rw [if_neg (by simp)]
    rw [hc]
    rfl
  · rw [registerS_steps _ (s ++ "-v0") ep _ hparse1 hbind]
    rw [if_pos (by simp [registered_environments, hc])]
    rw [hc]
  · rw [make, hparse0]
    simp only []
    rw [hc]
    rw [show List.find? (fun p => p.1 == s ++ "-v0")
        [(s ++ "-v0", (⟨s ++ "-v0", ep, kw, s, 0⟩ : EnvSpec V))] =
        some (s ++ "-v0", ⟨s ++ "-v0", ep, kw, s, 0⟩) from by
      rw [List.find?_cons]
      simp]
    simp only []
    rw [dictUpdate_nil]

/-- C6 witness: registering and making `"foo"` round through the key
`"foo-v0"`. -/
theorem c6_default_version_zero_witness :
    get_env_id "foo" (some 0) = "foo" ++ "-v0" ∧
    registerS "foo" "pkg:Env" [("kwargs", [("size", 4)])] [] =
      (.ok (), [("foo" ++ "-v0", ⟨"foo" ++ "-v0", "pkg:Env", [("size", 4)], "foo", 0⟩)]) ∧
    (registerS ("foo" ++ "-v0") "pkg:Env" [("kwargs", [("size", 4)])]
        [("foo" ++ "-v0", ⟨"foo" ++ "-v0", "pkg:Env", [("size", 4)], "foo", 0⟩)]).1 =
      .error (.duplicate ("foo" ++ "-v0")) ∧
    make "foo" [1] []
        [("foo" ++ "-v0", ⟨"foo" ++ "-v0", "pkg:Env", [("size", 4)], "foo", 0⟩)] =
      (.ok ("pkg:Env", [1], [("size", 4)]),
        [("foo" ++ "-v0", ⟨"foo" ++ "-v0", "pkg:Env", [("size", 4)], "foo", 0⟩)]) :=
  c6_default_version_zero "foo" "pkg:Env" [("size", 4)] [1]
    (by decide) (by decide) (by decide)

/-- C7: on a successful `make`, the constructor is invoked with the positional
args and kwargs merged from the stored defaults overwritten key-by-key by the
caller's kwargs (caller wins on every shared key); the stored record and the
registry are left unmodified, so a later `make` without overrides still sees
the original defaults. -/
theorem c7_make_merges_kwargs {V A : Type} (R : Registry V) (id name : String)
    (v : Nat) (pr : String × EnvSpec V) (args args2 : List A) (caller : Dict V)
    (hparse : parse_env_id id = .ok (name, v))
    (hfind : R.find? (fun p => p.1 == get_env_id name (some v)) = some pr)
    (hnodup : (caller.map (fun p => p.1)).Nodup) :
    make id args caller R =
      (.ok (pr.2.entry_point, args, dictUpdate pr.2.kwargs caller), R) ∧
    (∀ k, dictLookup (dictUpdate pr.2.kwargs caller) k =
      firstSome (dictLookup caller k) (dictLookup pr.2.kwargs k)) ∧
    make id args2 [] R = (.ok (pr.2.entry_point, args2, pr.2.kwargs), R) := by
  refine ⟨?_, fun k => dictLookup_dictUpdate pr.2.kwargs caller hnodup k, ?_⟩
  · rw [make, hparse]
    simp only []
    rw [hfind]
  · rw [make, hparse]
    simp only []
    rw [hfind]
    simp only []
    rw [dictUpdate_nil]

/-- C7 witness: the merge at a concrete registry, stored defaults
`n=4, x=0` and caller kwargs `n=8, m=1`. -/
theorem c7_make_merges_kwargs_witness :
    make "env" [5] [("n", 8), ("m", 1)]
        [("env-v0", ⟨"env-v0", "pkg:Env", [("n", 4), ("x", 0)], "env", 0⟩)] =
      (.ok ("pkg:Env", [5],
        dictUpdate [("n", 4), ("x", 0)] [("n", 8), ("m", 1)]),
        [("env-v0", ⟨"env-v0", "pkg:Env", [("n", 4), ("x", 0)], "env", 0⟩)]) ∧
    (∀ k, dictLookup (dictUpdate [("n", 4), ("x", 0)] [("n", 8), ("m", 1)]) k =
      firstSome (dictLookup [("n", 8), ("m", 1)] k)
        (dictLookup [("n", 4), ("x", 0)] k)) ∧
    make "env" [6] []
        [("env-v0", ⟨"env-v0", "pkg:Env", [("n", 4), ("x", 0)], "env", 0⟩)] =
      (.ok ("pkg:Env", [6], [("n", 4), ("x", 0)]),
        [("env-v0", ⟨"env-v0", "pkg:Env", [("n", 4), ("x", 0)], "env", 0⟩)]) := by
  exact c7_make_merges_kwargs
    [("env-v0", ⟨"env-v0", "pkg:Env", [("n", 4), ("x", 0)], "env", 0⟩)]
    "env" "env" 0 ("env-v0", ⟨"env-v0", "pkg:Env", [("n", 4), ("x", 0)], "env", 0⟩)
    [5] [6] [("n", 8), ("m", 1)] (by decide) (by decide) (by decide)

/-- C8: `make` on an unregistered canonical id fails with an
`UnregisteredEnvironment` error that enumerates exactly the currently
registered canonical ids, and leaves the registry unchanged. -/
theorem c8_make_unregistered_enumerates {V A : Type} (R : Registry V)
    (id name : String) (v : Nat) (args : List A) (kwargs : Dict V)
    (hparse : parse_env_id id = .ok (name, v))
    (hnone : R.find? (fun p => p.1 == get_env_id name (some v)) = none) :
    make id args kwargs R =
      (.error (.unregistered (get_env_id name (some v)) (registered_environments R)),
        R) := by
  rw [make, hparse]
  simp only []
  rw [hnone]

/-- C8 witness: making `"nope"` against a two-record registry. -/
theorem c8_make_unregistered_enumerates_witness :
    make (V := Unit) (A := Nat) "nope" [] []
        [("a-v0", ⟨"a-v0", "p:A", [], "a", 0⟩), ("b-v0", ⟨"b-v0", "p:B", [], "b", 0⟩)] =
      (.error (.unregistered (get_env_id "nope" (some 0))
          (registered_environments (V := Unit)
            [("a-v0", ⟨"a-v0", "p:A", [], "a", 0⟩), ("b-v0", ⟨"b-v0", "p:B", [], "b", 0⟩)])),
        [("a-v0", ⟨"a-v0", "p:A", [], "a", 0⟩), ("b-v0", ⟨"b-v0", "p:B", [], "b", 0⟩)]) :=
  c8_make_unregistered_enumerates
    [("a-v0", ⟨"a-v0", "p:A", [], "a", 0⟩), ("b-v0", ⟨"b-v0", "p:B", [], "b", 0⟩)]
    "nope" "nope" 0 [] [] (by decide) (by decide)

/-- C9: `registered_environments` returns exactly the canonical ids of the
records in the registry, in insertion order: a successful `register` appends
its canonical id at the end, and membership in the returned list coincides
with membership of a record in the registry. -/
theorem c9_registered_environments_order {V : Type} (R R2 : Registry V)
    (id ep name : String) (v : Nat) (extra : List (String × Dict V)) (kw : Dict V)
    (u : Unit) (hparse : parse_env_id id = .ok (name, v))
    (hbind : bindEnvSpecKwargs extra = .ok kw)
    (hreg : registerS id ep extra R = (.ok u, R2)) :
    registered_environments R2 =
      registered_environments R ++ [get_env_id name (some v)] ∧
    ∀ c, c ∈ registered_environments R2 ↔ ∃ s, (c, s) ∈ R2 := by
  refine ⟨?_, fun c => mem_registered_iff R2 c⟩
  rw [registerS_steps R id ep extra hparse hbind] at hreg
  by_cases hmem : get_env_id name (some v) ∈ registered_environments R
  · rw [if_pos hmem] at hreg
    exact absurd (congrArg Prod.fst hreg) (by simp)
  · rw [if_neg hmem] at hreg
    by_cases hgap : latestVersion R name = none ∧ v ≠ 0
    · rw [if_pos hgap] at hreg
      exact absurd (congrArg Prod.fst hreg) (by simp)
    · rw [if_neg hgap] at hreg
      have hsnd := congrArg Prod.snd hreg
      simp only [] at hsnd
      rw [← hsnd]
      simp [registered_environments]

/-- C9 witness: registering `"b"` after `"a-v0"` appends `"b-v0"`. -/
theorem c9_registered_environments_order_witness :
    (registered_environments (V := Unit)
        [("a-v0", ⟨"a-v0", "p:A", [], "a", 0⟩),
          ("b-v0", ⟨"b-v0", "p:B", [], "b", 0⟩)] =
      registered_environments (V := Unit) [("a-v0", ⟨"a-v0", "p:A", [], "a", 0⟩)] ++
        [get_env_id "b" (some 0)]) ∧
    ∀ c, c ∈ registered_environments (V := Unit)
        [("a-v0", ⟨"a-v0", "p:A", [], "a", 0⟩),
          ("b-v0", ⟨"b-v0", "p:B", [], "b", 0⟩)] ↔
      ∃ s, (c, s) ∈ ([("a-v0", ⟨"a-v0", "p:A", [], "a", 0⟩),
          ("b-v0", ⟨"b-v0", "p:B", [], "b", 0⟩)] : Registry Unit) := by
  exact c9_registered_environments_order
    [("a-v0", ⟨"a-v0", "p:A", [], "a", 0⟩)]
    [("a-v0", ⟨"a-v0", "p:A", [], "a", 0⟩), ("b-v0", ⟨"b-v0", "p:B", [], "b", 0⟩)]
    "b" "p:B" "b" 0 [] [] () (by decide) rfl (by decide)

/-- C10: `register` called with any keyword other than the literal `kwargs`
raises `TypeError` and inserts nothing; construction defaults are accepted
only as the keyword `kwargs`. -/
theorem c10_register_extra_keyword_typeerror {V : Type} (R : Registry V)
    (id ep name : String) (v : Nat) (extra : List (String × Dict V))
    (hparse : parse_env_id id = .ok (name, v))
    (hbad : ∃ p ∈ extra, p.1 ≠ "kwargs") :
    (∃ k, k ≠ "kwargs" ∧ registerS id ep extra R = (.error (.typeError k), R)) ∧
    ∀ m : Dict V, bindEnvSpecKwargs [("kwargs", m)] = .ok m := by
  refine ⟨?_, fun m => bindEnvSpecKwargs_kwargs m⟩
  obtain ⟨k, hkne, hbind⟩ := bindEnvSpecKwargs_bad hbad
  refine ⟨k, hkne, ?_⟩
  rw [registerS, hparse]
  simp only []
  rw [hbind]

/-- C10 witness: `register("env", ep, size=...)` raises `TypeError` and the
empty registry stays empty. -/
theorem c10_register_extra_keyword_typeerror_witness :
    (∃ k, k ≠ "kwargs" ∧ registerS (V := Nat) "env" "pkg:Env" [("size", [("n", 4)])] [] =
      (.error (.typeError k), [])) ∧
    ∀ m : Dict Nat, bindEnvSpecKwargs [("kwargs", m)] = .ok m :=
  c10_register_extra_keyword_typeerror [] "env" "pkg:Env" "env" 0 [("size", [("n", 4)])]
    (by decide) ⟨("size", [("n", 4)]), by simp, by decide⟩

end Jumanji
